import Mathlib

/-!
# Verification of the Imposter-Net four-room social-deduction environment

Shallow embedding of `src/env.py` (`FourRoomEnv`, `FourRoomEnvWithTagging`):
the grid topology, entity state, per-agent action resolution, voting
sub-state machine, win-condition evaluation and reward merge, together with
theorems settling the specification claims.

Numpy's global random generator is modelled by an explicit deterministic
state (`Rng`) threaded through the operations; `np.random.seed` replaces the
state by a function of the seed alone.
-/

namespace ImposterNet

/-- The action enum of `env.py` (`Action`): move actions and job actions. -/
inductive Action where
  | STAY
  | UP
  | DOWN
  | LEFT
  | RIGHT
  | KILL
  | FIX
  | SABOTAGE
deriving DecidableEq, Repr

/-- `Action.is_move_action`: membership in `{UP, DOWN, LEFT, RIGHT, STAY}`. -/
def Action.is_move_action : Action → Bool
  | .UP => true
  | .DOWN => true
  | .LEFT => true
  | .RIGHT => true
  | .STAY => true
  | _ => false

/-- `move(action, position)` from `env.py`: unit offset for the four
directions, identity for every other action. -/
def move (a : Action) (p : Int × Int) : Int × Int :=
  match a with
  | .UP => (p.1, p.2 + 1)
  | .DOWN => (p.1, p.2 - 1)
  | .LEFT => (p.1 - 1, p.2)
  | .RIGHT => (p.1 + 1, p.2)
  | _ => p

/-- `CREW_ACTIONS` from `env.py` (6 actions). -/
def CREW_ACTIONS : List Action :=
  [.STAY, .UP, .DOWN, .LEFT, .RIGHT, .FIX]

/-- `IMPOSTER_ACTIONS` from `env.py` (7 actions). -/
def IMPOSTER_ACTIONS : List Action :=
  [.STAY, .UP, .DOWN, .LEFT, .RIGHT, .SABOTAGE, .KILL]

/-- The wall cells of the four-room map (`self.walls` in
`FourRoomEnv.__init__`), as `(x, y)` pairs. -/
def walls : List (Int × Int) :=
  [(0, 4), (2, 4), (3, 4), (4, 4), (5, 4), (6, 4), (8, 4),
   (4, 0), (4, 2), (4, 3), (4, 5), (4, 6), (4, 8)]

/-- `self.grid[a][b]`: the 9×9 boolean grid is all ones with
`grid[walls[:, 0], walls[:, 1]] = 0`, so entry `(a, b)` is false exactly
when `(a, b)` is a wall pair. -/
def gridAt (a b : Int) : Bool :=
  !(walls.contains (a, b))

/-- `self.valid_positions = np.argwhere(self.grid)`: all index pairs of
true grid entries, in row-major order. -/
def valid_positions : List (Int × Int) :=
  ((List.range 9).map fun x =>
    (List.range 9).filterMap fun y =>
      if gridAt x y then some ((x : Int), (y : Int)) else none).flatten

/-- `FourRoomEnv._is_valid_position`: both coordinates in `[0, 9)` and the
grid entry indexed as `self.grid[pos[1], pos[0]]` is true. -/
def is_valid_position (p : Int × Int) : Bool :=
  (0 ≤ p.1 && 0 ≤ p.2 && p.1 < 9 && p.2 < 9) && gridAt p.2 p.1

/-- Construction-time configuration of `FourRoomEnv` (the fields of
`__init__` that the dynamics read). -/
structure EnvConfig where
  n_imposters : Nat
  n_crew : Nat
  n_jobs : Nat
  is_action_order_random : Bool
  kill_reward : Int
  complete_job_reward : Int
  sabotage_reward : Int
  time_step_reward : Int
  game_end_reward : Int
  dead_penalty : Int
  shuffle_imposter_index : Bool
deriving DecidableEq, Repr

/-- `self.n_agents = n_imposters + n_crew`. -/
def EnvConfig.n_agents (cfg : EnvConfig) : Nat :=
  cfg.n_imposters + cfg.n_crew

/-- `self.action_space = spaces.Discrete(len(Action))`: 8 in the base
environment. -/
def EnvConfig.action_space_n : Nat := 8

/-- The mutable per-episode state of `FourRoomEnv`: agent positions, alive
flags, job positions, job completion flags, the imposter mask fixed at
reset, and the per-step reward accumulator `self.agent_rewards`. -/
structure EnvState where
  agent_positions : List (Int × Int)
  alive_agents : List Bool
  job_positions : List (Int × Int)
  completed_jobs : List Bool
  imposter_mask : List Bool
  agent_rewards : List Int
deriving DecidableEq, Repr

/-- Python list indexing, including negative indices; `none` models an
`IndexError`. -/
def pyGet {α : Type} (l : List α) (i : Int) : Option α :=
  if 0 ≤ i then l.get? i.toNat
  else if 0 ≤ (l.length : Int) + i then l.get? ((l.length : Int) + i).toNat
  else none

/-- Deterministic model of numpy's global random generator state. -/
abbrev Rng := Nat

/-- One step of the modelled generator (a linear congruential update). -/
def rngNext (g : Rng) : Rng :=
  (g * 1103515245 + 12345) % 2147483648

/-- Model of `np.random.seed(s)`: the generator state becomes a function
of the seed alone. -/
def npSeed (s : Nat) : Rng := s

/-- Draw one value below `k` (model of a single uniform draw). -/
def randBelow (g : Rng) (k : Nat) : Nat × Rng :=
  (g % k, rngNext g)

/-- `np.random.choice(k, size = n, replace = True)`: `n` independent draws
below `k`. -/
def sampleWithReplacement : Rng → Nat → Nat → List Nat × Rng
  | g, _, 0 => ([], g)
  | g, k, Nat.succ n =>
    let d := randBelow g k
    let rest := sampleWithReplacement d.2 k n
    (d.1 :: rest.1, rest.2)

/-- Draw `n` distinct elements from the available list, removing each
drawn element. -/
def drawDistinct : Rng → List Nat → Nat → List Nat × Rng
  | g, _, 0 => ([], g)
  | g, avail, Nat.succ n =>
    if avail.isEmpty then ([], g)
    else
      let d := randBelow g avail.length
      let v := avail.getD d.1 0
      let rest := drawDistinct d.2 (avail.eraseIdx d.1) n
      (v :: rest.1, rest.2)

/-- `np.random.choice(k, size = n, replace = False)`: `n` distinct draws
below `k`. -/
def sampleWithoutReplacement (g : Rng) (k n : Nat) : List Nat × Rng :=
  drawDistinct g (List.range k) n

/-- `np.random.shuffle` on a list of naturals (Fisher–Yates style: draw an
index among the remaining elements, remove it, repeat). -/
def shuffleList : Rng → List Nat → List Nat × Rng
  | g, [] => ([], g)
  | g, x :: xs =>
    let d := randBelow g (x :: xs).length
    let v := (x :: xs).getD d.1 0
    let rest := shuffleList d.2 ((x :: xs).eraseIdx d.1)
    (v :: rest.1, rest.2)
termination_by _ l => l.length
decreasing_by
  have h : g % (xs.length + 1) < xs.length + 1 := Nat.mod_lt _ (Nat.succ_pos _)
  simp only [randBelow, List.length_eraseIdx, List.length_cons]
  simp [h]

/-- `FourRoomEnv._get_agents_at_pos(pos, crew_only)`: the indices of living
agents (living crew when `crew_only`) whose position equals `pos`, in
ascending index order. -/
def getAgentsAtPos (s : EnvState) (pos : Int × Int) (crew_only : Bool) : List Nat :=
  let alive := (List.range s.alive_agents.length).filter fun j =>
    s.alive_agents.getD j false &&
      (!crew_only || !(s.imposter_mask.getD j false))
  alive.filter fun j => s.agent_positions.getD j (0, 0) == pos

/-- `FourRoomEnv._get_job_at_pos(pos)`: the first job index whose position
equals `pos`, if any. -/
def getJobAtPos (s : EnvState) (pos : Int × Int) : Option Nat :=
  (List.range s.job_positions.length).find? fun j =>
    s.job_positions.getD j (0, 0) == pos

/-- `FourRoomEnv._agent_step(agent_idx, agent_action)`: no-op for a dead
agent; otherwise a move action updates the position when valid, `KILL`
removes a uniformly chosen living crew agent at the actor's cell and
overwrites both rewards with the kill reward, `FIX` completes an
incomplete job at the cell, and `SABOTAGE` un-completes a completed job
at the cell. -/
def agentStep (cfg : EnvConfig) (s : EnvState) (agent_idx : Nat)
    (agent_action : Action) (g : Rng) : EnvState × Rng :=
  if s.alive_agents.getD agent_idx false = false then (s, g)
  else
    let pos := s.agent_positions.getD agent_idx (0, 0)
    if agent_action.is_move_action then
      let new_pos := move agent_action pos
      if is_valid_position new_pos then
        ({ s with agent_positions := s.agent_positions.set agent_idx new_pos }, g)
      else (s, g)
    else if agent_action = .KILL then
      let agents_at_pos := getAgentsAtPos s pos true
      if agents_at_pos.isEmpty then (s, g)
      else
        let d := randBelow g agents_at_pos.length
        let victim_idx := agents_at_pos.getD d.1 0
        ({ s with
            alive_agents := s.alive_agents.set victim_idx false,
            agent_rewards :=
              (s.agent_rewards.set victim_idx cfg.kill_reward).set agent_idx
                cfg.kill_reward }, d.2)
    else if agent_action = .FIX then
      match getJobAtPos s pos with
      | some job_idx =>
        if s.completed_jobs.getD job_idx false = false then
          ({ s with
              completed_jobs := s.completed_jobs.set job_idx true,
              agent_rewards :=
                s.agent_rewards.set agent_idx cfg.complete_job_reward }, g)
        else (s, g)
      | none => (s, g)
    else if agent_action = .SABOTAGE then
      match getJobAtPos s pos with
      | some job_idx =>
        if s.completed_jobs.getD job_idx false = true then
          ({ s with
              completed_jobs := s.completed_jobs.set job_idx false,
              agent_rewards :=
                s.agent_rewards.set agent_idx (-1 * cfg.sabotage_reward) }, g)
        else (s, g)
      | none => (s, g)
    else (s, g)

/-- `np.sum(self.alive_agents[self.imposter_mask])`: the number of living
imposters. -/
def countAliveImposters (s : EnvState) : Nat :=
  (List.zipWith (fun a m => a && m) s.alive_agents s.imposter_mask).count true

/-- `FourRoomEnv.check_win_condition`: crew win (positive team reward) when
no living imposter remains or the completed-job count equals `n_jobs`;
otherwise imposter win (negative team reward) when living crew ≤ living
imposters; otherwise the episode continues with zero team reward. -/
def checkWinCondition (cfg : EnvConfig) (s : EnvState) : Bool × Int :=
  let aliveImp := countAliveImposters s
  let aliveAll := s.alive_agents.count true
  if aliveImp = 0 ∨ s.completed_jobs.count true = cfg.n_jobs then
    (true, cfg.game_end_reward)
  else if (aliveAll : Int) - (aliveImp : Int) ≤ (aliveImp : Int) then
    (true, -1 * cfg.game_end_reward)
  else (false, 0)

/-- `FourRoomEnv._merge_rewards`: add the team reward to every entry,
negate the first `n_imposters` entries, then overwrite every dead agent's
entry with the dead penalty. -/
def mergeRewards (cfg : EnvConfig) (agent_rewards : List Int) (team_reward : Int)
    (alive : List Bool) : List Int :=
  let r1 := agent_rewards.map fun v => v + team_reward
  let r2 := ((r1.take cfg.n_imposters).map fun v => -1 * v) ++ r1.drop cfg.n_imposters
  List.zipWith (fun v a => if a then v else cfg.dead_penalty) r2 alive

/-- `self.agent_action_map[i]` of the base environment: the crew action
list, overwritten by the imposter action list for imposter indices. -/
def actionMapOf (isImposter : Bool) : List Action :=
  if isImposter then IMPOSTER_ACTIONS else CREW_ACTIONS

/-- `FourRoomEnv.reset(seed)`: seed the generator when a seed is given,
draw the imposter indices (without replacement, or `0..n_imposters` when
shuffling is disabled), place agents with replacement and jobs without
replacement among the valid cells, and mark all agents alive and all jobs
incomplete. -/
def reset (cfg : EnvConfig) (seed : Option Nat) (g0 : Rng) : EnvState × Rng :=
  let g := match seed with
    | some sd => npSeed sd
    | none => g0
  let n := cfg.n_agents
  let imp := if cfg.shuffle_imposter_index then
      sampleWithoutReplacement g n cfg.n_imposters
    else (List.range cfg.n_imposters, g)
  let mask := (List.range n).map fun i => imp.1.contains i
  let agentCells := sampleWithReplacement imp.2 valid_positions.length n
  let positions := agentCells.1.map fun c => valid_positions.getD c (0, 0)
  let jobCells := sampleWithoutReplacement agentCells.2 valid_positions.length cfg.n_jobs
  let jobs := jobCells.1.map fun c => valid_positions.getD c (0, 0)
  ({ agent_positions := positions,
     alive_agents := List.replicate n true,
     job_positions := jobs,
     completed_jobs := List.replicate cfg.n_jobs false,
     imposter_mask := mask,
     agent_rewards := List.replicate n 0 }, jobCells.2)

/-- Outcome of a `step` call: `invalid` models an assertion failure of the
entry contract checks (before any state change); `indexError` models an
`IndexError` raised while translating an agent's action index mid-loop,
carrying the state at that moment; `ok` carries the new state, the merged
reward array, the `done` flag and the generator state. -/
inductive StepOut (σ : Type) where
  | invalid
  | indexError (mid : σ)
  | ok (s : σ) (rewards : List Int) (done : Bool) (g : Rng)
deriving DecidableEq, Repr

/-- Whether a step outcome is a normal return. -/
def StepOut.isOk {σ : Type} : StepOut σ → Bool
  | .ok _ _ _ _ => true
  | _ => false

/-- The `done` flag of a normal step return. -/
def StepOut.doneOf {σ : Type} : StepOut σ → Option Bool
  | .ok _ _ done _ => some done
  | _ => none

/-- The reward array of a normal step return. -/
def StepOut.rewardsOf {σ : Type} : StepOut σ → Option (List Int)
  | .ok _ rewards _ _ => some rewards
  | _ => none

/-- The state of a normal step return. -/
def StepOut.stateOf {σ : Type} : StepOut σ → Option σ
  | .ok s _ _ _ => some s
  | _ => none

/-- The per-agent loop of `FourRoomEnv.step`: for each index in the action
order, translate the action index through the agent's action map (Python
list indexing) and apply `_agent_step`; an out-of-range index raises,
leaving the state mutated so far. -/
def runAgents (cfg : EnvConfig) :
    List Nat → EnvState → List Int → Rng → Except EnvState (EnvState × Rng)
  | [], s, _, g => .ok (s, g)
  | i :: rest, s, actions, g =>
    match pyGet (actionMapOf (s.imposter_mask.getD i false)) (actions.getD i 0) with
    | none => .error s
    | some a =>
      let r := agentStep cfg s i a g
      runAgents cfg rest r.1 actions r.2

/-- `FourRoomEnv.step(agent_actions)`: assert the action-vector length and
the uniform bound `action < self.action_space.n`, initialize every agent's
reward to the time-step reward, resolve all agents in fixed or shuffled
order, evaluate the win condition and merge the team reward. -/
def step (cfg : EnvConfig) (s : EnvState) (agent_actions : List Int) (g : Rng) :
    StepOut EnvState :=
  if (agent_actions.length = cfg.n_agents ∧
      ∀ a ∈ agent_actions, a < (EnvConfig.action_space_n : Int)) then
    let s0 := { s with
      agent_rewards := List.replicate cfg.n_agents cfg.time_step_reward }
    let ord := if cfg.is_action_order_random then
        shuffleList g (List.range cfg.n_agents)
      else (List.range cfg.n_agents, g)
    match runAgents cfg ord.1 s0 agent_actions ord.2 with
    | .error mid => .indexError mid
    | .ok (s1, g2) =>
      let win := checkWinCondition cfg s1
      let rewards := mergeRewards cfg s1.agent_rewards win.2 s1.alive_agents
      .ok { s1 with agent_rewards := rewards } rewards win.1 g2
  else .invalid

/-- Configuration of `FourRoomEnvWithTagging`: the base configuration plus
the vote-reset interval and the vote reward. -/
structure TagConfig where
  base : EnvConfig
  tag_reset_interval : Nat
  vote_reward : Int
deriving DecidableEq, Repr

/-- `self.action_space = spaces.Discrete(len(Action) + self.n_agents)` in
the tagging environment. -/
def TagConfig.action_space_n (tcfg : TagConfig) : Nat :=
  8 + tcfg.base.n_agents

/-- State of `FourRoomEnvWithTagging`: the base state plus vote tallies,
accusation-used flags and the vote-reset countdown timer. -/
structure TagEnvState extends EnvState where
  tag_counts : List Nat
  used_tag_actions : List Bool
  tag_reset_timer : Nat
deriving DecidableEq, Repr

/-- An entry of the tagging environment's agent action map: either a base
`Action` or a tag action naming the target agent (the map is the base
list with the other agents' indices appended). -/
inductive TagAction where
  | act (a : Action)
  | tag (target : Nat)
deriving DecidableEq, Repr

/-- `self.agent_action_map[i]` of the tagging environment: the base list
for the agent's role followed by one tag action per other agent index. -/
def tagActionMapOf (n_agents : Nat) (isImposter : Bool) (i : Nat) : List TagAction :=
  (actionMapOf isImposter).map .act ++
    (((List.range n_agents).filter fun j => j ≠ i).map .tag)

/-- `FourRoomEnvWithTagging._agent_tag(agent_idx, agent_tagged)`: succeeds
(incrementing the target's tally and spending the actor's accusation) iff
the actor's accusation is unused and the target is alive; the actor's own
alive flag is not consulted. -/
def agentTag (s : TagEnvState) (agent_idx agent_tagged : Nat) : TagEnvState :=
  if s.used_tag_actions.getD agent_idx false = false ∧
      s.alive_agents.getD agent_tagged false = true then
    { s with
        tag_counts :=
          s.tag_counts.set agent_tagged (s.tag_counts.getD agent_tagged 0 + 1),
        used_tag_actions := s.used_tag_actions.set agent_idx true }
  else s

/-- `np.argmax` on a list of naturals: the first index attaining the
maximum (0 on the empty list). -/
def argmax (l : List Nat) : Nat :=
  (List.range l.length).foldl
    (fun best j => if l.getD j 0 > l.getD best 0 then j else best) 0

/-- `FourRoomEnvWithTagging._reset_tagging_state`: zero all tallies and
accusation-used flags and the countdown timer. -/
def resetTaggingState (n_agents : Nat) (s : TagEnvState) : TagEnvState :=
  { s with
      tag_counts := List.replicate n_agents 0,
      used_tag_actions := List.replicate n_agents false,
      tag_reset_timer := 0 }

/-- The post-action phase of `FourRoomEnvWithTagging.step` (zero dead
agents' tallies, advance the timer, and when it reaches the interval
resolve the vote and reset the tagging state); returns the new state and
the team-reward contribution of vote resolution. -/
def votePhase (tcfg : TagConfig) (s : TagEnvState) : TagEnvState × Int :=
  let tc := List.zipWith (fun c a => if a then c else 0) s.tag_counts s.alive_agents
  let t := s.tag_reset_timer + 1
  if t ≥ tcfg.tag_reset_interval then
    let highest_vote_idx := argmax tc
    let highest_vote := tc.getD highest_vote_idx 0
    let quorum := (s.alive_agents.count true + 1) / 2
    if highest_vote ≥ quorum then
      let is_imposter := s.imposter_mask.getD highest_vote_idx false
      (resetTaggingState tcfg.base.n_agents
        { s with
            alive_agents := s.alive_agents.set highest_vote_idx false,
            tag_counts := tc,
            tag_reset_timer := t },
       tcfg.vote_reward * (if is_imposter then -1 else 1))
    else
      (resetTaggingState tcfg.base.n_agents
        { s with tag_counts := tc, tag_reset_timer := t }, 0)
  else ({ s with tag_counts := tc, tag_reset_timer := t }, 0)

/-- The per-agent loop of `FourRoomEnvWithTagging.step`: integer entries of
the action map dispatch to `_agent_tag` (with no alive check on the
actor), the rest to `_agent_step`. -/
def runTagAgents (tcfg : TagConfig) :
    List Nat → TagEnvState → List Int → Rng → Except TagEnvState (TagEnvState × Rng)
  | [], s, _, g => .ok (s, g)
  | i :: rest, s, actions, g =>
    match pyGet (tagActionMapOf tcfg.base.n_agents (s.imposter_mask.getD i false) i)
        (actions.getD i 0) with
    | none => .error s
    | some (.tag target) => runTagAgents tcfg rest (agentTag s i target) actions g
    | some (.act a) =>
      let r := agentStep tcfg.base s.toEnvState i a g
      runTagAgents tcfg rest { s with toEnvState := r.1 } actions r.2

/-- `FourRoomEnvWithTagging.step(agent_actions)`: assert the entry
contract (uniform bound `action < len(Action) + n_agents`), resolve all
agents, run the vote phase, evaluate the win condition, and merge the
combined team reward. -/
def tagStep (tcfg : TagConfig) (s : TagEnvState) (agent_actions : List Int)
    (g : Rng) : StepOut TagEnvState :=
  if (agent_actions.length = tcfg.base.n_agents ∧
      ∀ a ∈ agent_actions, a < (tcfg.action_space_n : Int)) then
    let s0 := { s with
      agent_rewards := List.replicate tcfg.base.n_agents tcfg.base.time_step_reward }
    let ord := if tcfg.base.is_action_order_random then
        shuffleList g (List.range tcfg.base.n_agents)
      else (List.range tcfg.base.n_agents, g)
    match runTagAgents tcfg ord.1 s0 agent_actions ord.2 with
    | .error mid => .indexError mid
    | .ok (s1, g2) =>
      let voted := votePhase tcfg s1
      let win := checkWinCondition tcfg.base voted.1.toEnvState
      let team := voted.2 + win.2
      let rewards :=
        mergeRewards tcfg.base voted.1.agent_rewards team voted.1.alive_agents
      .ok { voted.1 with agent_rewards := rewards } rewards win.1 g2
  else .invalid

/-- `FourRoomEnvWithTagging.reset(seed)`: the base reset followed by
zeroing the tagging sub-state. -/
def tagReset (tcfg : TagConfig) (seed : Option Nat) (g0 : Rng) : TagEnvState × Rng :=
  let base := reset tcfg.base seed g0
  ({ toEnvState := base.1,
     tag_counts := List.replicate tcfg.base.n_agents 0,
     used_tag_actions := List.replicate tcfg.base.n_agents false,
     tag_reset_timer := 0 }, base.2)

/-! ## Position validity -/

/-- Every agent position of a state is a traversable cell. -/
def posInv (s : EnvState) : Prop :=
  ∀ p ∈ s.agent_positions, is_valid_position p = true

/-- `posInv` of the state carried by a step outcome (trivially true for a
rejected action vector, which leaves no state). -/
def stepPosInv : StepOut EnvState → Prop
  | .invalid => True
  | .indexError mid => posInv mid
  | .ok s _ _ _ => posInv s

/-! ## Shared concrete instances

A base environment with 1 imposter, 2 crew and no jobs (`cfgA`), and one
with 1 imposter, 3 crew and one job (`cfgB`); both use fixed action order
and an unshuffled imposter index, with the default reward values of
`FourRoomEnv.__init__` (`kill_reward = -5`, `complete_job_reward = 3`,
`sabotage_reward = 3`, `time_step_reward = 0`, `game_end_reward = 10`,
`dead_penalty = -2`). -/

def cfgA : EnvConfig :=
  { n_imposters := 1, n_crew := 2, n_jobs := 0,
    is_action_order_random := false,
    kill_reward := -5, complete_job_reward := 3, sabotage_reward := 3,
    time_step_reward := 0, game_end_reward := 10, dead_penalty := -2,
    shuffle_imposter_index := false }

/-- A reachable `cfgA` state: all agents alive, the imposter (agent 0) and
crew agent 1 co-located at `(1, 1)`, crew agent 2 at `(2, 2)`. -/
def stA : EnvState :=
  { agent_positions := [(1, 1), (1, 1), (2, 2)],
    alive_agents := [true, true, true],
    job_positions := [], completed_jobs := [],
    imposter_mask := [true, false, false],
    agent_rewards := [0, 0, 0] }

/-- The `cfgA` state right after the imposter kills agent 1: one living
imposter, one living crew member, zero jobs. -/
def stAPostKill : EnvState :=
  { agent_positions := [(1, 1), (1, 1), (2, 2)],
    alive_agents := [true, false, true],
    job_positions := [], completed_jobs := [],
    imposter_mask := [true, false, false],
    agent_rewards := [-5, -5, 0] }

def cfgB : EnvConfig :=
  { n_imposters := 1, n_crew := 3, n_jobs := 1,
    is_action_order_random := false,
    kill_reward := -5, complete_job_reward := 3, sabotage_reward := 3,
    time_step_reward := 0, game_end_reward := 10, dead_penalty := -2,
    shuffle_imposter_index := false }

/-- A reachable `cfgB` state: the imposter (agent 0) co-located with crew
agent 1 at `(1, 1)`, the job incomplete elsewhere. -/
def stB : EnvState :=
  { agent_positions := [(1, 1), (1, 1), (2, 2), (2, 2)],
    alive_agents := [true, true, true, true],
    job_positions := [(5, 5)], completed_jobs := [false],
    imposter_mask := [true, false, false, false],
    agent_rewards := [0, 0, 0, 0] }

/-- The tagging extension over `cfgB` with vote interval 1 and the default
`vote_reward = 3`. -/
def tcfgB : TagConfig :=
  { base := cfgB, tag_reset_interval := 1, vote_reward := 3 }

/-- A `tcfgB` state in which the imposter (agent 0) holds 2 votes with 4
living agents, so the vote due this step removes it. -/
def tstBImpVotes : TagEnvState :=
  { toEnvState := stB, tag_counts := [2, 0, 0, 0],
    used_tag_actions := [true, true, false, false], tag_reset_timer := 0 }

/-- A `tcfgB` state in which crew agent 1 holds 2 votes with 4 living
agents, so the vote due this step removes it. -/
def tstBCrewVotes : TagEnvState :=
  { toEnvState := stB, tag_counts := [0, 2, 0, 0],
    used_tag_actions := [true, true, false, false], tag_reset_timer := 0 }

/-- The `cfgB` state with the imposter (agent 0) dead. -/
def stBDead : EnvState :=
  { stB with alive_agents := [false, true, true, true] }

/-- A tagging state over `stBDead` with all accusations unused and all
tallies zero. -/
def tstBDead : TagEnvState :=
  { toEnvState := stBDead, tag_counts := [0, 0, 0, 0],
    used_tag_actions := [false, false, false, false], tag_reset_timer := 0 }

/-- The tagging extension over `cfgB` with the default vote interval 50
(so no vote resolves on the first step). -/
def tcfgB50 : TagConfig :=
  { base := cfgB, tag_reset_interval := 50, vote_reward := 3 }

/-! ## Helper lemmas -/

theorem getD_set_ne {α : Type} (l : List α) {i j : Nat} (a : α) (d : α)
    (h : i ≠ j) : (l.set i a).getD j d = l.getD j d := by
  simp [List.getD, List.getElem?_set_ne h]

theorem getD_set_eq {α : Type} (l : List α) {j : Nat} (a : α) (d : α)
    (h : j < l.length) : (l.set j a).getD j d = a := by
  simp [List.getD, List.getElem?_set_self, h]

theorem getD_mem_of_lt {α : Type} (l : List α) {i : Nat} (d : α)
    (h : i < l.length) : l.getD i d ∈ l := by
  simp [List.getD, List.getElem?_eq_getElem h]

theorem length_pos_of_isEmpty_eq_false {α : Type} {l : List α}
    (h : l.isEmpty = false) : 0 < l.length := by
  cases l with
  | nil => simp at h
  | cons a t => simp

/-- Members of `getAgentsAtPos s pos true` are alive, are not imposters,
and stand at `pos`. -/
theorem mem_getAgentsAtPos {s : EnvState} {pos : Int × Int} {x : Nat}
    (hx : x ∈ getAgentsAtPos s pos true) :
    s.alive_agents.getD x false = true ∧ s.imposter_mask.getD x false = false ∧
      s.agent_positions.getD x (0, 0) = pos := by
  unfold getAgentsAtPos at hx
  simp only [List.mem_filter, List.mem_range, Bool.and_eq_true, beq_iff_eq,
    Bool.or_eq_true, Bool.not_eq_true'] at hx
  obtain ⟨⟨-, halive, hmask⟩, hpos⟩ := hx
  refine ⟨halive, ?_, hpos⟩
  simpa using hmask

/-- Every cell of `valid_positions` passes `_is_valid_position` (this uses
the x/y symmetry of the wall set: the grid is built with `[x, y]` indexing
but queried with `[y, x]` indexing). -/
theorem valid_positions_all_valid :
    ∀ p ∈ valid_positions, is_valid_position p = true := by decide

theorem sampleWithReplacement_all_lt (g : Rng) (k n : Nat) (hk : 0 < k) :
    ∀ x ∈ (sampleWithReplacement g k n).1, x < k := by
  induction n generalizing g with
  | zero => intro x hx; simp [sampleWithReplacement] at hx
  | succ m ih =>
    intro x hx
    simp only [sampleWithReplacement] at hx
    rcases List.mem_cons.mp hx with h | h
    · rw [h, randBelow]
      exact Nat.mod_lt g hk
    · exact ih _ _ h

/-- `reset` places every agent on a valid cell: the sampled cell indices
are below `len(valid_positions)` and index into `valid_positions`. -/
theorem posInv_reset (cfg : EnvConfig) (seed : Option Nat) (g : Rng) :
    posInv (reset cfg seed g).1 := by
  intro p hp
  simp only [reset] at hp
  rcases List.mem_map.mp hp with ⟨c, hc, rfl⟩
  have hclt := sampleWithReplacement_all_lt _ _ _ (by decide) c hc
  exact valid_positions_all_valid _ (getD_mem_of_lt _ _ hclt)

/-- `_agent_step` either leaves the position list unchanged or overwrites
the actor's position with a cell that passed `_is_valid_position`. -/
theorem agentStep_positions (cfg : EnvConfig) (s : EnvState) (i : Nat)
    (a : Action) (g : Rng) :
    (agentStep cfg s i a g).1.agent_positions = s.agent_positions ∨
    ∃ q, is_valid_position q = true ∧
      (agentStep cfg s i a g).1.agent_positions = s.agent_positions.set i q := by
  simp only [agentStep]
  repeat' split
  all_goals first
    | exact Or.inl rfl
    | exact Or.inr ⟨_, by assumption, rfl⟩

theorem posInv_agentStep (cfg : EnvConfig) (s : EnvState) (i : Nat)
    (a : Action) (g : Rng) (h : posInv s) : posInv (agentStep cfg s i a g).1 := by
  rcases agentStep_positions cfg s i a g with hp | ⟨q, hq, hp⟩
  · intro p hmem
    rw [hp] at hmem
    exact h p hmem
  · intro p hmem
    rw [hp] at hmem
    rcases List.mem_or_eq_of_mem_set hmem with hm | rfl
    · exact h p hm
    · exact hq

theorem posInv_runAgents (cfg : EnvConfig) (order : List Nat) (s : EnvState)
    (actions : List Int) (g : Rng) (h : posInv s) :
    (∀ mid, runAgents cfg order s actions g = .error mid → posInv mid) ∧
    (∀ p, runAgents cfg order s actions g = .ok p → posInv p.1) := by
  induction order generalizing s g with
  | nil =>
    refine ⟨fun mid hmid => ?_, fun p hp => ?_⟩
    · simp [runAgents] at hmid
    · simp only [runAgents] at hp
      cases hp
      exact h
  | cons i rest ih =>
    unfold runAgents
    cases hpg : pyGet (actionMapOf (s.imposter_mask.getD i false)) (actions.getD i 0) with
    | none =>
      refine ⟨fun mid hmid => ?_, fun p hp => ?_⟩
      · cases hmid
        exact h
      · cases hp
    | some a =>
      exact ih (agentStep cfg s i a g).1 (agentStep cfg s i a g).2
        (posInv_agentStep cfg s i a g h)

/-- One full `step` preserves `posInv`, in the normal return and in the
state left behind by a mid-loop `IndexError` alike. -/
theorem stepPosInv_step (cfg : EnvConfig) (s : EnvState) (actions : List Int)
    (g : Rng) (h : posInv s) : stepPosInv (step cfg s actions g) := by
  simp only [step]
  split
  case isTrue hcond =>
    have h0 : posInv { s with
        agent_rewards := List.replicate cfg.n_agents cfg.time_step_reward } := h
    have hrun := posInv_runAgents cfg
      (if cfg.is_action_order_random then shuffleList g (List.range cfg.n_agents)
        else (List.range cfg.n_agents, g)).1
      { s with agent_rewards := List.replicate cfg.n_agents cfg.time_step_reward }
      actions
      (if cfg.is_action_order_random then shuffleList g (List.range cfg.n_agents)
        else (List.range cfg.n_agents, g)).2 h0
    cases hres : runAgents cfg
      (if cfg.is_action_order_random then shuffleList g (List.range cfg.n_agents)
        else (List.range cfg.n_agents, g)).1
      { s with agent_rewards := List.replicate cfg.n_agents cfg.time_step_reward }
      actions
      (if cfg.is_action_order_random then shuffleList g (List.range cfg.n_agents)
        else (List.range cfg.n_agents, g)).2 with
    | error mid =>
      rw [hres] at hrun
      exact hrun.1 mid rfl
    | ok p =>
      rw [hres] at hrun
      exact hrun.2 p rfl
  case isFalse hcond => trivial

/-! ## Claims -/

/-- C1: the claim says that with `n_jobs = 0` the all-jobs-completed
crew-win branch never fires, so the 1-imposter / 2-crew / 0-jobs kill
scenario ends in `IMPOSTER_WIN` with the negative team reward. The code
disagrees: `check_win_condition` tests `np.sum(self.completed_jobs) ==
self.n_jobs`, which is `0 == 0` when `n_jobs = 0`, so the crew-win branch
fires with the positive team reward `+10` even though living crew (1) ≤
living imposters (1); the full step returns `done = true` with merged
rewards `[-5, -2, 10]` (crew agent 2 receives `0 + 10`, the crew-win
reward, not `0 - 10`). The subclass `ImposterTrainingGround` guards this
very case with `self.n_jobs != 0`, and the spec states the intent, so the
base-class behavior is a code bug. -/
theorem c1_zero_jobs_crew_win_fires :
    checkWinCondition cfgA stAPostKill = (true, 10) ∧
    cfgA.game_end_reward = 10 ∧
    countAliveImposters stAPostKill = 1 ∧
    stAPostKill.alive_agents.count true - countAliveImposters stAPostKill = 1 ∧
    (step cfgA stA [6, 0, 0] 0).doneOf = some true ∧
    (step cfgA stA [6, 0, 0] 0).rewardsOf = some [-5, -2, 10] := by
  decide

/-- C2 counterexample: in the concrete `cfgB` step the imposter (agent 0)
kills crew agent 1 (its alive flag clears), yet the reward array returned
by `step` is `[5, -2, 0, 0]`: the victim's entry is the dead-agent
penalty `-2`, not the kill reward `-5`, because `_merge_rewards` runs
after the kill and overwrites every dead agent's entry; the actor's entry
is `+5`, the kill reward negated by the imposter-index sign flip. So the
claim is false of the array returned by `step`. -/
theorem c2_returned_rewards_counterexample :
    cfgB.kill_reward = -5 ∧
    ((step cfgB stB [6, 0, 0, 0] 0).stateOf.map EnvState.alive_agents) =
      some [true, false, true, true] ∧
    (step cfgB stB [6, 0, 0, 0] 0).rewardsOf = some [5, -2, 0, 0] ∧
    ¬ (5 : Int) = cfgB.kill_reward ∧
    ¬ (-2 : Int) = cfgB.kill_reward := by
  decide

/-- C2 amended: inside `_agent_step`, a Kill by a living agent with at
least one living crew agent at its cell marks exactly one such victim
not-alive (the uniformly chosen member of the living-crew-at-cell list)
and overwrites — rather than adds to — both the victim's and the actor's
entries of the per-step reward array with the configured kill reward; the
array `step` returns afterwards applies the merge (team add, index-based
negation, dead-agent overwrite) on top of these values. -/
theorem c2_kill_step_semantics (cfg : EnvConfig) (s : EnvState) (i : Nat)
    (g : Rng) (victims : List Nat) (v : Nat)
    (hvic : victims = getAgentsAtPos s (s.agent_positions.getD i (0, 0)) true)
    (hv : v = victims.getD (g % victims.length) 0)
    (halive : s.alive_agents.getD i false = true)
    (hne : victims.isEmpty = false) :
    (agentStep cfg s i .KILL g).1 =
      { s with alive_agents := s.alive_agents.set v false,
               agent_rewards :=
                 (s.agent_rewards.set v cfg.kill_reward).set i cfg.kill_reward } ∧
    v ∈ victims ∧
    s.alive_agents.getD v false = true ∧
    s.imposter_mask.getD v false = false := by
  have hlen : 0 < victims.length := length_pos_of_isEmpty_eq_false hne
  have hvmem : v ∈ victims := hv ▸ getD_mem_of_lt victims 0 (Nat.mod_lt _ hlen)
  obtain ⟨ha, hm, hp⟩ := mem_getAgentsAtPos (hvic ▸ hvmem)
  refine ⟨?_, hvmem, ha, hm⟩
  unfold agentStep
  rw [halive]
  simp only [Action.is_move_action, Bool.false_eq_true, if_false, if_true,
    reduceIte, ← hvic, hne, randBelow, ← hv]
  simp

/-- C2 witness: the kill semantics at the concrete `cfgB` state (victim
list `[1]`, victim 1). -/
theorem c2_kill_step_semantics_witness :
    (agentStep cfgB stB 0 .KILL 0).1 =
      { stB with alive_agents := stB.alive_agents.set 1 false,
                 agent_rewards :=
                   (stB.agent_rewards.set 1 cfgB.kill_reward).set 0
                     cfgB.kill_reward } ∧
    1 ∈ [1] ∧
    stB.alive_agents.getD 1 false = true ∧
    stB.imposter_mask.getD 1 false = false :=
  c2_kill_step_semantics cfgB stB 0 0 [1] 1 (by decide) (by decide) (by decide)
    (by decide)

/-- C3: the claim (and the comment in `FourRoomEnvWithTagging.step`:
"Reward Crew if Imposter is voted out") says the vote-resolution team
adjustment is positive for crew when an imposter is removed. The code
computes `team_reward += self.vote_reward * (-1 if is_imposter else 1)`,
so removing the imposter (agent 0, tallies `[2, 0, 0, 0]`, quorum 2 of 4
living) contributes `-3 = -vote_reward`, and removing crew agent 1
(tallies `[0, 2, 0, 0]`) contributes `+3`: the signs are exactly opposite
to the claim and to the code's own comment, hence a code bug. -/
theorem c3_vote_team_adjustment_sign :
    tcfgB.vote_reward = 3 ∧
    (votePhase tcfgB tstBImpVotes).1.alive_agents = [false, true, true, true] ∧
    tstBImpVotes.imposter_mask.getD 0 false = true ∧
    (votePhase tcfgB tstBImpVotes).2 = -3 ∧
    (votePhase tcfgB tstBCrewVotes).1.alive_agents = [true, false, true, true] ∧
    tstBCrewVotes.imposter_mask.getD 1 false = false ∧
    (votePhase tcfgB tstBCrewVotes).2 = 3 := by
  decide

/-- C4 counterexample: the claim says `step` fails, immediately and with
no partial application, whenever some action index is outside the legal
range of that agent's own action set — for example a negative index. In
the code the only per-action check is `action < self.action_space.n`, so:
(a) the action vector `[0, -1, 0, 0]` (a negative index for crew agent 1,
whose legal set has 6 actions) is not rejected at all — Python list
indexing maps `-1` to the last entry, `FIX`, and the step returns
normally; and (b) the vector `[1, 6, 0, 0]` (6 is valid for an imposter's
7-action set but beyond crew agent 1's 6-action set) passes the entry
assertions and only raises an `IndexError` mid-loop, after agent 0's move
has already been applied. -/
theorem c4_per_agent_range_counterexample :
    ((-1 : Int) < 0) ∧
    CREW_ACTIONS.length = 6 ∧
    pyGet CREW_ACTIONS (-1) = some Action.FIX ∧
    (step cfgB stB [0, -1, 0, 0] 0).isOk = true ∧
    step cfgB stB [0, -1, 0, 0] 0 ≠ StepOut.invalid ∧
    IMPOSTER_ACTIONS.length = 7 ∧
    pyGet CREW_ACTIONS 6 = none ∧
    step cfgB stB [1, 6, 0, 0] 0 =
      StepOut.indexError
        { stB with agent_positions := [(1, 2), (1, 1), (2, 2), (2, 2)] } := by
  decide

/-- C4 amended: the entry contract of `step` (base and tagging) rejects —
immediately, before any state change — exactly the action vectors whose
length differs from the agent count or that contain an index `≥
action_space.n` (8 in the base environment, `8 + n_agents` with tagging);
indices below that uniform bound but outside an agent's own action set
are not rejected by the entry check. -/
theorem c4_step_contract_checks (cfg : EnvConfig) (s : EnvState)
    (tcfg : TagConfig) (ts : TagEnvState) (actions : List Int) (g g2 : Rng) :
    (step cfg s actions g = .invalid ↔
      ¬(actions.length = cfg.n_agents ∧
        ∀ a ∈ actions, a < (EnvConfig.action_space_n : Int))) ∧
    (tagStep tcfg ts actions g2 = .invalid ↔
      ¬(actions.length = tcfg.base.n_agents ∧
        ∀ a ∈ actions, a < (tcfg.action_space_n : Int))) := by
  constructor
  · unfold step
    split
    case isTrue h =>
      rcases hr : runAgents cfg (if cfg.is_action_order_random then
          shuffleList g (List.range cfg.n_agents)
        else (List.range cfg.n_agents, g)).1
        { s with agent_rewards := List.replicate cfg.n_agents cfg.time_step_reward }
        actions (if cfg.is_action_order_random then
          shuffleList g (List.range cfg.n_agents)
        else (List.range cfg.n_agents, g)).2 with mid | p
      · simp [hr]
        exact h
      · simp [hr]
        exact h
    case isFalse h => simp [h]
  · unfold tagStep
    split
    case isTrue h =>
      rcases hr : runTagAgents tcfg (if tcfg.base.is_action_order_random then
          shuffleList g2 (List.range tcfg.base.n_agents)
        else (List.range tcfg.base.n_agents, g2)).1
        { ts with agent_rewards :=
            List.replicate tcfg.base.n_agents tcfg.base.time_step_reward }
        actions (if tcfg.base.is_action_order_random then
          shuffleList g2 (List.range tcfg.base.n_agents)
        else (List.range tcfg.base.n_agents, g2)).2 with mid | p
      · simp [hr]
        exact h
      · simp [hr]
        exact h
    case isFalse h => simp [h]

/-- C5 counterexample: the claim says every action of a dead agent,
including Accuse, is a no-op. `_agent_tag` checks only that the actor's
accusation is unused and the target is alive — not that the actor is
alive — and the tagging `step` dispatches tag actions without any alive
check, so the dead agent 0 of `tstBDead` successfully accuses the living
agent 1: the tally and the used flag change, both in `_agent_tag` alone
and through a full tagging step (interval 50, so no vote resets the
evidence). -/
theorem c5_dead_accuser_counterexample :
    tstBDead.alive_agents.getD 0 false = false ∧
    (agentTag tstBDead 0 1).tag_counts = [0, 1, 0, 0] ∧
    (agentTag tstBDead 0 1).used_tag_actions = [true, false, false, false] ∧
    agentTag tstBDead 0 1 ≠ tstBDead ∧
    ((tagStep tcfgB50 tstBDead [7, 0, 0, 0] 0).stateOf.map
      TagEnvState.tag_counts) = some [0, 1, 0, 0] ∧
    ((tagStep tcfgB50 tstBDead [7, 0, 0, 0] 0).stateOf.map
      TagEnvState.used_tag_actions) = some [true, false, false, false] := by
  decide

/-- C5 amended: for a dead agent every base action (move, Kill, Fix,
Sabotage) is a no-op — `_agent_step` returns before touching state or
rewards — but Accuse is not gated on the actor being alive: whenever the
actor's accusation is unused and the target is alive, `_agent_tag`
increments the target's tally and spends the actor's flag, dead actor or
not. -/
theorem c5_dead_agent_noop_except_accuse (cfg : EnvConfig) (s : EnvState)
    (i : Nat) (a : Action) (g : Rng) (ts : TagEnvState) (j t : Nat)
    (hdead : s.alive_agents.getD i false = false)
    (hunused : ts.used_tag_actions.getD j false = false)
    (htarget : ts.alive_agents.getD t false = true) :
    agentStep cfg s i a g = (s, g) ∧
    agentTag ts j t =
      { ts with
          tag_counts := ts.tag_counts.set t (ts.tag_counts.getD t 0 + 1),
          used_tag_actions := ts.used_tag_actions.set j true } := by
  constructor
  · unfold agentStep
    rw [hdead]
    simp
  · unfold agentTag
    rw [if_pos ⟨hunused, htarget⟩]

/-- C5 witness: the amended statement at the concrete dead agent 0 of
`stBDead` / `tstBDead` with living target 1. -/
theorem c5_dead_agent_noop_except_accuse_witness :
    agentStep cfgB stBDead 0 .KILL 0 = (stBDead, 0) ∧
    agentTag tstBDead 0 1 =
      { tstBDead with
          tag_counts := tstBDead.tag_counts.set 1 (tstBDead.tag_counts.getD 1 0 + 1),
          used_tag_actions := tstBDead.used_tag_actions.set 0 true } :=
  c5_dead_agent_noop_except_accuse cfgB stBDead 0 .KILL 0 tstBDead 0 1
    (by decide) (by decide) (by decide)

/-- C6: on a step whose countdown reaches the interval, the vote phase
marks the argmax-tally agent not-alive exactly when that tally (dead
agents' tallies having been zeroed) reaches the quorum `(living + 1) / 2 =
ceil(living / 2)`, and — quorum met or not — resets all tallies, all
accusation-used flags and the timer to zero before the step returns. -/
theorem c6_vote_resolution (tcfg : TagConfig) (s : TagEnvState)
    (tc : List Nat) (hi quorum : Nat)
    (htc : tc = List.zipWith (fun c a => if a then c else 0) s.tag_counts s.alive_agents)
    (hhi : hi = argmax tc)
    (hq : quorum = (s.alive_agents.count true + 1) / 2)
    (hdue : s.tag_reset_timer + 1 ≥ tcfg.tag_reset_interval) :
    (votePhase tcfg s).1.tag_counts = List.replicate tcfg.base.n_agents 0 ∧
    (votePhase tcfg s).1.used_tag_actions = List.replicate tcfg.base.n_agents false ∧
    (votePhase tcfg s).1.tag_reset_timer = 0 ∧
    (tc.getD hi 0 ≥ quorum →
      (votePhase tcfg s).1.alive_agents = s.alive_agents.set hi false) ∧
    (tc.getD hi 0 < quorum →
      (votePhase tcfg s).1.alive_agents = s.alive_agents) := by
  subst htc hhi hq
  unfold votePhase
  rw [if_pos hdue]
  by_cases hv : (List.zipWith (fun c a => if a then c else 0) s.tag_counts
      s.alive_agents).getD
        (argmax (List.zipWith (fun c a => if a then c else 0) s.tag_counts
          s.alive_agents)) 0 ≥ (s.alive_agents.count true + 1) / 2
  · rw [if_pos hv]
    refine ⟨rfl, rfl, rfl, fun _ => rfl, fun hlt => absurd hv (by omega)⟩
  · rw [if_neg hv]
    exact ⟨rfl, rfl, rfl, fun hge => absurd hge hv, fun _ => rfl⟩

/-- C6 witness: the vote resolution at `tstBImpVotes` (tallies
`[2, 0, 0, 0]`, argmax 0, quorum 2, interval 1 reached). -/
theorem c6_vote_resolution_witness :
    (votePhase tcfgB tstBImpVotes).1.tag_counts =
      List.replicate tcfgB.base.n_agents 0 ∧
    (votePhase tcfgB tstBImpVotes).1.used_tag_actions =
      List.replicate tcfgB.base.n_agents false ∧
    (votePhase tcfgB tstBImpVotes).1.tag_reset_timer = 0 ∧
    ([2, 0, 0, 0].getD 0 0 ≥ 2 →
      (votePhase tcfgB tstBImpVotes).1.alive_agents =
        tstBImpVotes.alive_agents.set 0 false) ∧
    ([2, 0, 0, 0].getD 0 0 < 2 →
      (votePhase tcfgB tstBImpVotes).1.alive_agents =
        tstBImpVotes.alive_agents) :=
  c6_vote_resolution tcfgB tstBImpVotes [2, 0, 0, 0] 0 2 (by decide) (by decide)
    (by decide) (by decide)

/-- C7: `_merge_rewards` computes each returned entry by adding the team
reward to the base reward, negating the combined value exactly for the
fixed index range `i < n_imposters` (by index, not role), and finally
overwriting every dead agent's entry with the dead-agent penalty. -/
theorem c7_merge_rewards_formula (cfg : EnvConfig) (r : List Int) (team : Int)
    (alive : List Bool) (i : Nat) (hir : i < r.length) (hia : i < alive.length) :
    (mergeRewards cfg r team alive).getD i 0 =
      if alive.getD i false = false then cfg.dead_penalty
      else if i < cfg.n_imposters then -1 * (r.getD i 0 + team)
      else r.getD i 0 + team := by
  unfold mergeRewards
  have h2' : ((((r.map fun v => v + team).take cfg.n_imposters).map fun v => -1 * v) ++
      (r.map fun v => v + team).drop cfg.n_imposters).length = r.length := by
    simp
    omega
  have hiz : i < (List.zipWith (fun v a => if a then v else cfg.dead_penalty)
      ((((r.map fun v => v + team).take cfg.n_imposters).map fun v => -1 * v) ++
        (r.map fun v => v + team).drop cfg.n_imposters) alive).length := by
    rw [List.length_zipWith, h2']
    omega
  rw [List.getD_eq_getElem _ _ hiz, List.getElem_zipWith,
    List.getD_eq_getElem _ _ hia, List.getD_eq_getElem _ _ hir]
  by_cases hb : alive.get (Fin.mk i hia) = false
  · simp only [List.get_eq_getElem] at hb
    simp [hb]
  · simp only [List.get_eq_getElem] at hb
    simp only [Bool.not_eq_false] at hb
    simp only [hb, Bool.true_eq_false, if_true, if_false]
    by_cases hik : i < cfg.n_imposters
    · rw [List.getElem_append_left (by simp; omega)]
      simp [hik]
    · rw [List.getElem_append_right (by simp; omega)]
      simp only [List.length_map, List.length_take, List.getElem_drop,
        List.getElem_map]
      simp only [hik, if_false]
      have hidx : cfg.n_imposters + (i - min cfg.n_imposters r.length) = i := by
        omega
      simp only [hidx]

/-- C7 witness: the merge formula at a concrete instance (4 agents, one
imposter index, agent 1 dead, team reward 10). -/
theorem c7_merge_rewards_formula_witness :
    (mergeRewards cfgB [1, 2, 3, 4] 10 [true, false, true, true]).getD 1 0 =
      if [true, false, true, true].getD 1 false = false then cfgB.dead_penalty
      else if 1 < cfgB.n_imposters then -1 * ([1, 2, 3, 4].getD 1 0 + 10)
      else [1, 2, 3, 4].getD 1 0 + 10 :=
  c7_merge_rewards_formula cfgB [1, 2, 3, 4] 10 [true, false, true, true] 1
    (by decide) (by decide)

/-- C8: a Kill action never clears an imposter's alive flag — the
candidate victims are drawn exclusively from the living crew partition
(`_get_agents_at_pos` with `crew_only = True`), so every member of the
victim list is a living non-imposter and the chosen victim cannot be any
agent whose imposter-mask bit is set. -/
theorem c8_kill_never_clears_imposter (cfg : EnvConfig) (s : EnvState)
    (i j : Nat) (g : Rng) (hj : s.imposter_mask.getD j false = true) :
    ((agentStep cfg s i .KILL g).1).alive_agents.getD j false =
      s.alive_agents.getD j false ∧
    ∀ x ∈ getAgentsAtPos s (s.agent_positions.getD i (0, 0)) true,
      s.imposter_mask.getD x false = false ∧
        s.alive_agents.getD x false = true := by
  have hcrew : ∀ x ∈ getAgentsAtPos s (s.agent_positions.getD i (0, 0)) true,
      s.imposter_mask.getD x false = false ∧ s.alive_agents.getD x false = true :=
    fun x hx => ⟨(mem_getAgentsAtPos hx).2.1, (mem_getAgentsAtPos hx).1⟩
  refine ⟨?_, hcrew⟩
  unfold agentStep
  by_cases hd : s.alive_agents.getD i false = false
  · rw [if_pos hd]
  · rw [if_neg hd]
    simp only [Action.is_move_action, Bool.false_eq_true, if_false, reduceIte]
    by_cases he : (getAgentsAtPos s (s.agent_positions.getD i (0, 0)) true).isEmpty
    · rw [if_pos he]
    · rw [if_neg he]
      have hlen : 0 < (getAgentsAtPos s (s.agent_positions.getD i (0, 0)) true).length :=
        length_pos_of_isEmpty_eq_false (by simpa using he)
      have hvmem := getD_mem_of_lt
        (getAgentsAtPos s (s.agent_positions.getD i (0, 0)) true) 0
        (Nat.mod_lt g hlen)
      have hvcrew := (mem_getAgentsAtPos hvmem).2.1
      have hne : (getAgentsAtPos s (s.agent_positions.getD i (0, 0)) true).getD
          ((randBelow g (getAgentsAtPos s
            (s.agent_positions.getD i (0, 0)) true).length).1) 0 ≠ j := by
        intro hEq
        rw [randBelow] at hEq
        rw [hEq] at hvcrew
        rw [hvcrew] at hj
        exact Bool.false_ne_true hj
      exact getD_set_ne _ _ _ hne

/-- C8 witness: the Kill-preservation statement at the concrete `cfgB`
state with the imposter at index 0 acting. -/
theorem c8_kill_never_clears_imposter_witness :
    ((agentStep cfgB stB 0 .KILL 0).1).alive_agents.getD 0 false =
      stB.alive_agents.getD 0 false ∧
    ∀ x ∈ getAgentsAtPos stB (stB.agent_positions.getD 0 (0, 0)) true,
      stB.imposter_mask.getD x false = false ∧
        stB.alive_agents.getD x false = true :=
  c8_kill_never_clears_imposter cfgB stB 0 0 0 (by decide)

/-- C9: calling `reset` (base or tagging) twice with the same seed yields
identical results — in the embedding `np.random.seed(seed)` replaces the
generator state by a function of the seed alone, so the returned state
(role assignment via `imposter_mask`, agent positions, job positions,
alive flags, job-completion flags, and in the tagging extension the
zeroed tagging sub-state) does not depend on the incoming generator
state. -/
theorem c9_reset_seed_deterministic (cfg : EnvConfig) (tcfg : TagConfig)
    (sd : Nat) (g1 g2 : Rng) :
    reset cfg (some sd) g1 = reset cfg (some sd) g2 ∧
    tagReset tcfg (some sd) g1 = tagReset tcfg (some sd) g2 :=
  ⟨rfl, rfl⟩

/-- C10: the wall set is symmetric under swapping the coordinates, so the
`[y, x]`-indexed query of the `[x, y]`-built grid agrees with the wall
list; every cell of `valid_positions` is valid; `reset` places every
agent on a cell drawn from `valid_positions`; and a full `step` preserves
the all-agent-positions-valid invariant (moves only apply after
`_is_valid_position` passes), including in the state left by a mid-loop
`IndexError`. -/
theorem c10_agent_positions_valid (cfg : EnvConfig) (seed : Option Nat)
    (g g2 : Rng) (s : EnvState) (actions : List Int) (hs : posInv s) :
    (∀ x : Nat, x < 9 → ∀ y : Nat, y < 9 →
      gridAt (x : Int) (y : Int) = gridAt (y : Int) (x : Int)) ∧
    (∀ p ∈ valid_positions, is_valid_position p = true) ∧
    posInv (reset cfg seed g2).1 ∧
    stepPosInv (step cfg s actions g) :=
  ⟨by decide, valid_positions_all_valid, posInv_reset cfg seed g2,
    stepPosInv_step cfg s actions g hs⟩

/-- C10 witness: the invariant statement at the concrete `cfgB` state and
a concrete reset. -/
theorem c10_agent_positions_valid_witness :
    (∀ x : Nat, x < 9 → ∀ y : Nat, y < 9 →
      gridAt (x : Int) (y : Int) = gridAt (y : Int) (x : Int)) ∧
    (∀ p ∈ valid_positions, is_valid_position p = true) ∧
    posInv (reset cfgB (some 7) 0).1 ∧
    stepPosInv (step cfgB stB [6, 0, 0, 0] 0) :=
  c10_agent_positions_valid cfgB (some 7) 0 0 stB [6, 0, 0, 0]
    (by unfold posInv; decide)

end ImposterNet
